import Mathlib

/-!
Shallow embedding of the Ralph extension's iteration orchestrator
(`src/extension.ts`, current revision): the commit watcher
(`pollForGitCommit` / `waitForGitCommitAndExecuteCommandW`), the sticky file
selection (`selectFile`), the Enter-key delivery fallback chain
(`simulateEnterKey`), and the workflow loop (`runWorkflowLoop`) together with
the `stopLoop` and `typeHelloWorld` command handlers.

Modelling conventions:
* A `vscode.Uri` is represented by its `fsPath` string (the source compares
  files only through `fsPath`).
* `async` functions that can suspend are modelled as pure functions over the
  sequence of values the mutable globals (`shouldStop`, `selectedFile`, ...)
  are observed to have at each checkpoint, supplied as explicit arguments.
* A JavaScript `Promise` that may never settle is modelled with `Option`:
  `none` means the promise never resolves (the awaiting caller blocks forever).
* Thrown exceptions are modelled with `Except`.
* Wall-clock time inside the sub-sleep loop is idealised: after `k` iterations
  of `await waitForDelay(500)` the elapsed time is exactly `500 * k` ms.
-/

-- ============================================================================
-- Commit watcher (source lines 93-205)
-- ============================================================================

/-- Embeds `hasCommitOccurred` (source lines 93-95):
`return currentHead !== null && currentHead !== initialHead;`.
A `null` (failed) fetch is never reported as a commit. -/
def hasCommitOccurred (initialHead : String) (currentHead : Option String) : Bool :=
  match currentHead with
  | none => false
  | some h => h != initialHead

/-- Embeds the `while (true)` sub-sleep loop inside `pollForGitCommit`
(source lines 146-157).  Iteration `k` (1-based) performs
`await waitForDelay(500)`, then checks `checkIfShouldStop()` — `stop k` is the
value of the global `shouldStop` observed at that check — and then breaks when
the idealised elapsed time `500 * k` exceeds `pollInterval`.
Returns `true` when the loop resolved the promise with `false` because a stop
was observed, `false` when the loop exited via `break`.
The first argument is recursion fuel; `subSleepLoop` supplies
`pollInterval / 500 + 1`, which is exactly the number of iterations after
which the `break` condition `500 * k > pollInterval` fires, so the
fuel-exhaustion branch is unreachable. -/
def subSleepLoopAux (stop : Nat → Bool) (pollInterval : Nat) : Nat → Nat → Bool
  | 0, _ => false
  | fuel + 1, k =>
    if stop k then true
    else if 500 * k > pollInterval then false
    else subSleepLoopAux stop pollInterval fuel (k + 1)

/-- The sub-sleep loop of `pollForGitCommit`, started at tick `k = 1` with
enough fuel to reach the `break` condition. -/
def subSleepLoop (stop : Nat → Bool) (pollInterval : Nat) : Bool :=
  subSleepLoopAux stop pollInterval (pollInterval / 500 + 1) 1

/-- Outcome of the promise returned by `pollForGitCommit`: it either resolves
with a boolean, or it never settles (no code path calls `resolve`). -/
inductive PollOutcome where
  | resolved (value : Bool)
  | hangs
  deriving DecidableEq, Repr

/-- Embeds `pollForGitCommit` (source lines 138-166).  After the sub-sleep
loop either resolves `false` (stop observed) or breaks, the function performs
a single `getCurrentGitHead()` fetch — `currentHeadFetch` is its result — and
resolves `true` only when `hasCommitOccurred` holds; on the remaining path the
executor falls through without calling `resolve`, so the promise hangs.
`maxWaitTime` is accepted but never read, exactly as in the source. -/
def pollForGitCommit (initialHead : String) (pollInterval maxWaitTime : Nat)
    (stop : Nat → Bool) (currentHeadFetch : Option String) : PollOutcome :=
  if subSleepLoop stop pollInterval then PollOutcome.resolved false
  else if hasCommitOccurred initialHead currentHeadFetch then PollOutcome.resolved true
  else PollOutcome.hangs

/-- Result of `waitForGitCommitAndExecuteCommandW`: `outcome = some b` means
the function returned `b`; `outcome = none` means it never returns (it awaits
a promise that never resolves).  `executedCommandW` records whether
`executeCommandW()` was invoked. -/
structure WatchResult where
  outcome : Option Bool
  executedCommandW : Bool
  deriving DecidableEq, Repr

/-- Embeds `waitForGitCommitAndExecuteCommandW` (source lines 171-205) with
the hard-coded `pollInterval = 20000` and `maxWaitTime = 1200000` of the
source.  `initialHead` is the result of `getInitialGitHead()`; `stop` gives
the `shouldStop` values observed at the sub-sleep checkpoints;
`currentHeadFetch` is the fetch performed by `pollForGitCommit`;
`stopAfterPoll` and `stopAfterSettle` are the `checkIfShouldStop()` values
observed at source lines 189 and 197 (after the poll resolves, and after the
5-second settle delay). -/
def waitForGitCommitAndExecuteCommandW (initialHead : Option String)
    (stop : Nat → Bool) (currentHeadFetch : Option String)
    (stopAfterPoll stopAfterSettle : Bool) : WatchResult :=
  match initialHead with
  | none => ⟨some false, false⟩
  | some h0 =>
    match pollForGitCommit h0 20000 1200000 stop currentHeadFetch with
    | PollOutcome.hangs => ⟨none, false⟩
    | PollOutcome.resolved false => ⟨some false, false⟩
    | PollOutcome.resolved true =>
      if stopAfterPoll then ⟨some false, false⟩
      else if stopAfterSettle then ⟨some false, false⟩
      else ⟨some true, true⟩

-- ============================================================================
-- File selection (source lines 235-263)
-- ============================================================================

/-- Result of `selectFile`: the returned value, the value of the global
`selectedFile` afterwards, and whether `showQuickPick` was invoked. -/
structure SelectFileResult where
  result : Option String
  selectedFileAfter : Option String
  prompted : Bool
  deriving DecidableEq, Repr

/-- Embeds `selectFile` (source lines 235-263).  `selectedFile` is the sticky
global before the call; `files` the candidate list (each `vscode.Uri`
represented by its `fsPath`); `pick` the index of the quick-pick item chosen
by the user (`none` when the picker is dismissed; the real picker can only
return one of the offered items, so valid runs have `pick` in range).
Branches:
* sticky set and a candidate with the same `fsPath` exists (`find?`): return
  it, sticky unchanged;
* sticky set but absent: assign `selectedFile = files[0]` and return it
  (`files[0]` is `undefined`, modelled `none`, on an empty list — the caller
  guarantees non-emptiness);
* no sticky: show the quick pick; a dismissed picker returns `null`, a chosen
  item is stored in `selectedFile` and returned. -/
def selectFile (selectedFile : Option String) (files : List String)
    (pick : Option Nat) : SelectFileResult :=
  match selectedFile with
  | some sf =>
    match files.find? (fun f => f == sf) with
    | some fileItem => ⟨some fileItem, some sf, false⟩
    | none =>
      match files.head? with
      | some f0 => ⟨some f0, some f0, false⟩
      | none => ⟨none, none, false⟩
  | none =>
    match pick with
    | none => ⟨none, none, true⟩
    | some i =>
      match files[i]? with
      | some f => ⟨some f, some f, true⟩
      | none => ⟨none, none, true⟩

-- ============================================================================
-- Enter-key delivery fallback chain (source lines 332-356)
-- ============================================================================

/-- Embeds `simulateEnterKey` (source lines 332-356).  `m1`, `m2`, `m3` are
the outcomes of the three mechanisms (AppleScript keystroke, editor `type`
command, `acceptSelectedQuickOpenItem`): `Except.ok ()` when the call
succeeds, `Except.error e` when it raises.  Returns the outcome propagated to
the caller together with the list of mechanisms attempted, in order.  Each
`catch` swallows its error and tries the next mechanism; the innermost
`catch` only logs, so the function always returns normally. -/
def simulateEnterKey (m1 m2 m3 : Except String Unit) : Except String Unit × List Nat :=
  match m1 with
  | Except.ok _ => (Except.ok (), [1])
  | Except.error _ =>
    match m2 with
    | Except.ok _ => (Except.ok (), [1, 2])
    | Except.error _ =>
      match m3 with
      | Except.ok _ => (Except.ok (), [1, 2, 3])
      | Except.error _ => (Except.ok (), [1, 2, 3])

-- ============================================================================
-- Loop session state and workflow loop (source lines 13-16, 453-496, 520-537)
-- ============================================================================

/-- The module-level mutable loop state of the extension (source lines
13-16): `isLooping`, `shouldStop`, `currentIterationCount`, `selectedFile`
(the sticky file, represented by its `fsPath`). -/
structure LoopState where
  isLooping : Bool
  shouldStop : Bool
  currentIterationCount : Nat
  selectedFile : Option String
  deriving DecidableEq, Repr

/-- Embeds `resetLoopState` (source lines 453-459): every field is set to its
idle default, regardless of the previous state.  (`updateStatusBar()` is UI
glue and not modelled.) -/
def resetLoopState (_s : LoopState) : LoopState :=
  { isLooping := false, shouldStop := false, currentIterationCount := 0, selectedFile := none }

/-- Trace record of one `executeWorkflowIteration()` call made by the loop
body: the `currentIterationCount` value in effect when the body was invoked,
the body's result (`Except.error` models a thrown exception), the value of
`shouldStop` observed at the `if (shouldStop || !result) break;` check, and
the value `shouldStop` acquires during the 1-second inter-iteration delay. -/
structure IterTrace where
  count : Nat
  result : Except Unit Bool
  stopAfter : Bool
  stopInDelay : Bool
  deriving Repr

/-- Did the iteration body return `true` (the `Completed` outcome)? -/
def iterationCompleted : Except Unit Bool → Bool
  | Except.ok true => true
  | _ => false

/-- The condition under which the loop body proceeds to another iteration:
the body returned `true`, no stop was observed at the break check, and no
stop arrived during the 1-second delay before the `while` condition is
re-tested. -/
def continues (t : IterTrace) : Bool :=
  iterationCompleted t.result && !t.stopAfter && !t.stopInDelay

/-- Embeds the `while (!shouldStop) { ... }` loop of `runWorkflowLoop`
(source lines 473-487).  `iter n s` is the behaviour of
`executeWorkflowIteration()` on the `n`-th pass given global state `s`: it
returns the body's outcome (`Except.error` for a thrown exception) and the
global state as mutated by the body (the body may set `selectedFile` and an
external `stopLoop` command may set `shouldStop` while it runs).
`delayStop n` tells whether `shouldStop` is set during the
`await waitForDelay(1000)` that follows a successful pass `n`.  The `Nat`
argument is fuel bounding the number of passes that can be observed; `none`
means the loop was still running when the fuel ran out.  On exit it returns
the final value of the local `iterationCount`, the global state, and the
trace of all body invocations. -/
def runLoopAux (iter : Nat → LoopState → Except Unit Bool × LoopState)
    (delayStop : Nat → Bool) :
    Nat → Nat → LoopState → Option (Nat × LoopState × List IterTrace)
  | 0, _, _ => none
  | fuel + 1, n, s =>
    if s.shouldStop then some (n, s, [])
    else
      match iter (n + 1) { s with currentIterationCount := n + 1 } with
      | (Except.error e, s2) =>
        some (n + 1, s2, [⟨n + 1, Except.error e, s2.shouldStop, delayStop (n + 1)⟩])
      | (Except.ok r, s2) =>
        if s2.shouldStop || !r then
          some (n + 1, s2, [⟨n + 1, Except.ok r, s2.shouldStop, delayStop (n + 1)⟩])
        else
          match runLoopAux iter delayStop fuel (n + 1)
              { s2 with shouldStop := delayStop (n + 1) } with
          | none => none
          | some (m, s3, tr) =>
            some (m, s3, ⟨n + 1, Except.ok r, s2.shouldStop, delayStop (n + 1)⟩ :: tr)

/-- Embeds `runWorkflowLoop` (source lines 464-496).  On entry it sets
`shouldStop = false`, `isLooping = true`, `currentIterationCount = 0`
(`selectedFile` keeps its previous value).  The `try`/`catch` around the loop
body means a thrown exception also exits the loop normally from the caller's
perspective, and the `finally` block applies `resetLoopState` on every exit
path. -/
def runWorkflowLoop (iter : Nat → LoopState → Except Unit Bool × LoopState)
    (delayStop : Nat → Bool) (fuel : Nat) (s0 : LoopState) :
    Option (Nat × LoopState × List IterTrace) :=
  match runLoopAux iter delayStop fuel 0
      { isLooping := true, shouldStop := false, currentIterationCount := 0,
        selectedFile := s0.selectedFile } with
  | none => none
  | some (m, s1, tr) => some (m, resetLoopState s1, tr)

/-- Embeds the `ralph-extension.stopLoop` command handler (source lines
520-526): `shouldStop` is set only when `isLooping` is true; otherwise the
handler does nothing. -/
def stopLoopHandler (s : LoopState) : LoopState :=
  if s.isLooping then { s with shouldStop := true } else s

/-- What the `ralph-extension.typeHelloWorld` command handler did:
`alreadyRunning s` means the "Loop is already running" warning was shown and
the handler returned with the state `s` untouched and no loop started;
`ran r` means `runWorkflowLoop` was invoked and produced `r`. -/
inductive StartOutcome where
  | alreadyRunning (s : LoopState)
  | ran (r : Option (Nat × LoopState × List IterTrace))

/-- Embeds the `ralph-extension.typeHelloWorld` command handler (source lines
529-537): if `isLooping` it warns and returns without touching any state;
otherwise it awaits `runWorkflowLoop()`. -/
def typeHelloWorldHandler (iter : Nat → LoopState → Except Unit Bool × LoopState)
    (delayStop : Nat → Bool) (fuel : Nat) (s : LoopState) : StartOutcome :=
  if s.isLooping then StartOutcome.alreadyRunning s
  else StartOutcome.ran (runWorkflowLoop iter delayStop fuel s)

-- ============================================================================
-- Helper lemmas
-- ============================================================================

/-- Finding an element equal (by `==`) to `sf` in a list containing `sf`
yields `sf` itself. -/
theorem find_beq_self (sf : String) (l : List String) (h : sf ∈ l) :
    l.find? (fun f => f == sf) = some sf := by
  induction l with
  | nil => cases h
  | cons a as ih =>
    by_cases ha : a = sf
    · subst ha
      simp [List.find?]
    · have hne : (a == sf) = false := by
        simpa using ha
      rcases List.mem_cons.mp h with h1 | h2
      · exact absurd h1.symm ha
      · simp [List.find?, hne, ih h2]

/-- When no element equal to `sf` is present, `find?` returns `none`. -/
theorem find_beq_none (sf : String) (l : List String) (h : sf ∉ l) :
    l.find? (fun f => f == sf) = none := by
  rw [List.find?_eq_none]
  intro x hx
  simp only [beq_iff_eq]
  intro hxe
  exact h (hxe ▸ hx)

-- ============================================================================
-- Claim theorems
-- ============================================================================

/-- Claim C1 (code bug): with a provider that always returns the baseline
fingerprint and no cancellation request, the commit watcher is supposed to
return `NoSignal` (`false`) once `maxWaitMs` has elapsed — but the embedded
code hangs: `pollForGitCommit` never reads `maxWaitTime` and its promise
executor falls through without resolving when the fetched head equals the
baseline, so `waitForGitCommitAndExecuteCommandW` never returns (outcome
`none`); `executeCommandW` is indeed never invoked. -/
theorem commitWatcher_noChange_hangs :
    waitForGitCommitAndExecuteCommandW (some "F0") (fun _ => false) (some "F0")
        false false = ⟨none, false⟩
    ∧ pollForGitCommit "F0" 20000 1200000 (fun _ => false) (some "F0")
        = PollOutcome.hangs := by
  constructor <;> rfl

/-- Claim C2: whenever a cancellation checkpoint that the watcher actually
evaluates observes `shouldStop = true` before `executeCommandW` — a
`checkIfShouldStop()` inside the sub-sleep loop, the check after the poll
resolves with a detected commit, or the check after the 5-second settle
delay — `waitForGitCommitAndExecuteCommandW` returns `false` (the `Cancelled`
outcome) and `executeCommandW` is never invoked. -/
theorem commitWatcher_cancelSafe (h0 : String) (stop : Nat → Bool)
    (currentHeadFetch : Option String) (stopAfterPoll stopAfterSettle : Bool)
    (h : subSleepLoop stop 20000 = true
      ∨ (pollForGitCommit h0 20000 1200000 stop currentHeadFetch
            = PollOutcome.resolved true ∧ stopAfterPoll = true)
      ∨ (pollForGitCommit h0 20000 1200000 stop currentHeadFetch
            = PollOutcome.resolved true ∧ stopAfterPoll = false
          ∧ stopAfterSettle = true)) :
    waitForGitCommitAndExecuteCommandW (some h0) stop currentHeadFetch
        stopAfterPoll stopAfterSettle = ⟨some false, false⟩ := by
  rcases h with h | ⟨h, hA⟩ | ⟨h, hA, hB⟩
  · have hp : pollForGitCommit h0 20000 1200000 stop currentHeadFetch
        = PollOutcome.resolved false := by
      unfold pollForGitCommit
      simp [h]
    simp [waitForGitCommitAndExecuteCommandW, hp]
  · simp [waitForGitCommitAndExecuteCommandW, h, hA]
  · simp [waitForGitCommitAndExecuteCommandW, h, hA, hB]

/-- Witness for C2: cancellation observed at the very first sub-sleep
checkpoint yields the `Cancelled` outcome with no cleanup. -/
theorem commitWatcher_cancelSafe_witness :
    subSleepLoop (fun _ => true) 20000 = true
    ∧ waitForGitCommitAndExecuteCommandW (some "F0") (fun _ => true) (some "F1")
        false false = ⟨some false, false⟩ :=
  ⟨rfl, commitWatcher_cancelSafe "F0" (fun _ => true) (some "F1") false false
      (Or.inl rfl)⟩

/-- Claim C3 (code bug): a failed fingerprint fetch is indeed never reported
as a commit (`hasCommitOccurred initialHead none = false`), but polling does
not continue afterwards as the claim states: `pollForGitCommit` performs a
single fetch and, when it fails with no cancellation, never resolves — there
is no next tick and `maxWaitMs` never elapses. -/
theorem fetchFailure_noChange_hangs :
    hasCommitOccurred "F0" none = false
    ∧ pollForGitCommit "F0" 20000 1200000 (fun _ => false) none
        = PollOutcome.hangs := by
  constructor <;> rfl

/-- Claim C5: sticky selection policy of `selectFile` — a sticky file still
among the candidates is returned without prompting; a sticky file no longer
present falls back to the first candidate without prompting and updates the
sticky reference; the quick pick is shown only when no sticky reference
exists, and a dismissed pick yields `null`. -/
theorem selectFile_stickyPolicy (sf f0 : String) (fs : List String)
    (pick : Option Nat) :
    (sf ∈ f0 :: fs →
      selectFile (some sf) (f0 :: fs) pick = ⟨some sf, some sf, false⟩)
    ∧ (sf ∉ f0 :: fs →
      selectFile (some sf) (f0 :: fs) pick = ⟨some f0, some f0, false⟩)
    ∧ (∀ files : List String, (selectFile none files pick).prompted = true)
    ∧ selectFile none (f0 :: fs) none = ⟨none, none, true⟩ := by
  refine ⟨fun hmem => ?_, fun hnmem => ?_, fun files => ?_, rfl⟩
  · simp [selectFile, find_beq_self sf (f0 :: fs) hmem]
  · simp [selectFile, find_beq_none sf (f0 :: fs) hnmem, List.head?]
  · cases pick with
    | none => rfl
    | some i =>
      simp only [selectFile]
      cases h : files[i]? <;> simp [h]

/-- Witness for C5: with candidates `[a, b]`, a sticky `a` is reused
silently, and a sticky `z` that is no longer present falls back to `a`
without prompting. -/
theorem selectFile_stickyPolicy_witness :
    selectFile (some "a") ["a", "b"] none = ⟨some "a", some "a", false⟩
    ∧ selectFile (some "z") ["a", "b"] none = ⟨some "a", some "a", false⟩ :=
  ⟨(selectFile_stickyPolicy "a" "a" ["b"] none).1 (by decide),
   (selectFile_stickyPolicy "z" "a" ["b"] none).2.1 (by decide)⟩

/-- Claim C6: `simulateEnterKey` never raises to its caller; the attempt list
is always an order-respecting prefix-shaped chain `[1]`, `[1,2]` or
`[1,2,3]`; mechanism 2 is attempted only if mechanism 1 raised, mechanism 3
only if both earlier mechanisms raised; and in particular when mechanism 1
raises and mechanism 2 succeeds, mechanism 3 is never attempted. -/
theorem simulateEnterKey_contract (m1 m2 m3 : Except String Unit) :
    (simulateEnterKey m1 m2 m3).1 = Except.ok ()
    ∧ (simulateEnterKey m1 m2 m3).2 ∈ [[1], [1, 2], [1, 2, 3]]
    ∧ (2 ∈ (simulateEnterKey m1 m2 m3).2 → ∃ e, m1 = Except.error e)
    ∧ (3 ∈ (simulateEnterKey m1 m2 m3).2 →
        (∃ e, m1 = Except.error e) ∧ ∃ e2, m2 = Except.error e2)
    ∧ (∀ e, m1 = Except.error e → m2 = Except.ok () →
        (simulateEnterKey m1 m2 m3).2 = [1, 2]
        ∧ 3 ∉ (simulateEnterKey m1 m2 m3).2) := by
  rcases m1 with e1 | u1 <;> rcases m2 with e2 | u2 <;> rcases m3 with e3 | u3 <;>
    simp [simulateEnterKey]

/-- Witness for C6: mechanism 1 raises, mechanism 2 succeeds — the attempt
list is `[1, 2]` and mechanism 3 is never attempted. -/
theorem simulateEnterKey_contract_witness :
    (simulateEnterKey (Except.error "boom") (Except.ok ()) (Except.ok ())).2 = [1, 2]
    ∧ 3 ∉ (simulateEnterKey (Except.error "boom") (Except.ok ()) (Except.ok ())).2 :=
  (simulateEnterKey_contract (Except.error "boom") (Except.ok ())
      (Except.ok ())).2.2.2.2 "boom" rfl rfl

/-- Claim C7: invoking the `typeHelloWorld` command while `isLooping` is true
only surfaces the "already running" warning: the handler returns with the
session state untouched (iteration count and sticky `selectedFile` included)
and `runWorkflowLoop` is not invoked. -/
theorem startWhileRunning_noop (iter : Nat → LoopState → Except Unit Bool × LoopState)
    (delayStop : Nat → Bool) (fuel : Nat) (s : LoopState)
    (h : s.isLooping = true) :
    typeHelloWorldHandler iter delayStop fuel s = StartOutcome.alreadyRunning s := by
  unfold typeHelloWorldHandler
  simp [h]

/-- Witness for C7: a running session with iteration count 7 and a sticky
file is left exactly as it was. -/
theorem startWhileRunning_noop_witness :
    typeHelloWorldHandler (fun _ s => (Except.ok false, s)) (fun _ => false) 3
        ⟨true, false, 7, some "f"⟩
      = StartOutcome.alreadyRunning ⟨true, false, 7, some "f"⟩ :=
  startWhileRunning_noop (fun _ s => (Except.ok false, s)) (fun _ => false) 3
    ⟨true, false, 7, some "f"⟩ rfl

/-- Claim C9: the `stopLoop` command is a no-op while no loop is running
(`shouldStop` is set only when `isLooping`), and `runWorkflowLoop` clears
`shouldStop` on entry (its result does not depend on the incoming flag), so a
stop request issued while idle can never cancel a later loop. -/
theorem stopWhileIdle_noop (s : LoopState) (h : s.isLooping = false) :
    stopLoopHandler s = s
    ∧ (∀ (iter : Nat → LoopState → Except Unit Bool × LoopState)
        (delayStop : Nat → Bool) (fuel : Nat),
        runWorkflowLoop iter delayStop fuel (stopLoopHandler s)
          = runWorkflowLoop iter delayStop fuel s)
    ∧ (∀ (iter : Nat → LoopState → Except Unit Bool × LoopState)
        (delayStop : Nat → Bool) (fuel : Nat) (b : Bool),
        runWorkflowLoop iter delayStop fuel { s with shouldStop := b }
          = runWorkflowLoop iter delayStop fuel s) := by
  have hs : stopLoopHandler s = s := by
    unfold stopLoopHandler
    simp [h]
  exact ⟨hs, fun iter delayStop fuel => by rw [hs], fun iter delayStop fuel b => rfl⟩

/-- Witness for C9: stopping while idle leaves the idle state unchanged. -/
theorem stopWhileIdle_noop_witness :
    stopLoopHandler ⟨false, false, 0, none⟩ = (⟨false, false, 0, none⟩ : LoopState) :=
  (stopWhileIdle_noop ⟨false, false, 0, none⟩ rfl).1

/-- Claim C10: on a non-empty candidate list (with the picker only able to
return offered items), `selectFile` returns `null` only when the prompt was
shown and dismissed, and every non-null result is an element of the candidate
list with the sticky `selectedFile` global holding that same path
afterwards. -/
theorem selectFile_resultInvariant (sticky : Option String) (f0 : String)
    (fs : List String) (pick : Option Nat)
    (hpick : ∀ i, pick = some i → i < (f0 :: fs).length) :
    (∀ f, (selectFile sticky (f0 :: fs) pick).result = some f →
      f ∈ f0 :: fs
      ∧ (selectFile sticky (f0 :: fs) pick).selectedFileAfter = some f)
    ∧ ((selectFile sticky (f0 :: fs) pick).result = none →
      (selectFile sticky (f0 :: fs) pick).prompted = true ∧ pick = none) := by
  cases sticky with
  | some sf =>
    cases hfind : (f0 :: fs).find? (fun f => f == sf) with
    | some x =>
      have hx : x = sf := by
        have := List.find?_some hfind
        simpa using this
      have hmem : x ∈ f0 :: fs := List.mem_of_find?_eq_some hfind
      constructor
      · intro f hf
        simp only [selectFile, hfind] at hf ⊢
        cases hf
        exact ⟨hmem, by rw [hx]⟩
      · intro hf
        simp [selectFile, hfind] at hf
    | none =>
      constructor
      · intro f hf
        simp only [selectFile, hfind, List.head?] at hf ⊢
        cases hf
        exact ⟨List.mem_cons_self f0 fs, rfl⟩
      · intro hf
        simp [selectFile, hfind, List.head?] at hf
  | none =>
    cases pick with
    | none =>
      constructor
      · intro f hf
        simp [selectFile] at hf
      · intro _
        exact ⟨rfl, rfl⟩
    | some i =>
      have hlt : i < (f0 :: fs).length := hpick i rfl
      have hget : (f0 :: fs)[i]? = some ((f0 :: fs)[i]) :=
        List.getElem?_eq_getElem hlt
      constructor
      · intro f hf
        simp only [selectFile, hget] at hf ⊢
        cases hf
        exact ⟨List.getElem_mem hlt, rfl⟩
      · intro hf
        simp [selectFile, hget] at hf

/-- Witness for C10: with no sticky reference, candidates `[a]` and the user
picking index 0, the result is `a`, which is a candidate, and the sticky
reference afterwards is `a`. -/
theorem selectFile_resultInvariant_witness :
    "a" ∈ ["a"]
    ∧ (selectFile none ["a"] (some 0)).selectedFileAfter = some "a" :=
  (selectFile_resultInvariant none "a" [] (some 0)
    (by intro i hi; injection hi with h; subst h; decide)).1 "a" rfl

/-- A `runLoopAux` run entered with `shouldStop` already set exits at the
`while` test without invoking the body: its trace is empty. -/
theorem runLoopAux_stopped (iter : Nat → LoopState → Except Unit Bool × LoopState)
    (delayStop : Nat → Bool) (fuel n : Nat) (s : LoopState) (m : Nat)
    (s' : LoopState) (tr : List IterTrace) (hstop : s.shouldStop = true)
    (h : runLoopAux iter delayStop fuel n s = some (m, s', tr)) :
    tr = [] := by
  cases fuel with
  | zero => simp [runLoopAux] at h
  | succ fuel =>
    simp only [runLoopAux, hstop] at h
    simp only [if_true] at h
    simp only [Option.some.injEq, Prod.mk.injEq] at h
    exact h.2.2.symm

/-- A terminated `runLoopAux` run entered with `shouldStop` clear performs at
least one body invocation: its trace is non-empty. -/
theorem runLoopAux_progress (iter : Nat → LoopState → Except Unit Bool × LoopState)
    (delayStop : Nat → Bool) (fuel n : Nat) (s : LoopState) (m : Nat)
    (s' : LoopState) (tr : List IterTrace) (hstop : s.shouldStop = false)
    (h : runLoopAux iter delayStop fuel n s = some (m, s', tr)) :
    tr ≠ [] := by
  cases fuel with
  | zero => simp [runLoopAux] at h
  | succ fuel =>
    simp only [runLoopAux, hstop, Bool.false_eq_true, if_false] at h
    split at h
    · simp only [Option.some.injEq, Prod.mk.injEq] at h
      rw [← h.2.2]
      simp
    · split at h
      · simp only [Option.some.injEq, Prod.mk.injEq] at h
        rw [← h.2.2]
        simp
      · split at h
        · simp at h
        · simp only [Option.some.injEq, Prod.mk.injEq] at h
          rw [← h.2.2]
          simp

/-- Structure of every terminated run of the `while` loop in
`runWorkflowLoop`: the final local `iterationCount` equals the starting value
plus the number of body invocations; the `i`-th body invocation (0-based)
runs with `currentIterationCount` already incremented to `n + 1 + i`; and a
body invocation is followed by another one exactly when it returned `true`
(the `Completed` outcome) with no stop observed at the break check nor during
the inter-iteration delay. -/
theorem runLoopAux_trace (iter : Nat → LoopState → Except Unit Bool × LoopState)
    (delayStop : Nat → Bool) :
    ∀ (fuel n : Nat) (s : LoopState) (m : Nat) (s' : LoopState) (tr : List IterTrace),
      runLoopAux iter delayStop fuel n s = some (m, s', tr) →
      m = n + tr.length
      ∧ (∀ i (hi : i < tr.length), (tr[i]).count = n + 1 + i)
      ∧ (∀ i (hi : i < tr.length), (i + 1 < tr.length ↔ continues tr[i] = true)) := by
  intro fuel
  induction fuel with
  | zero =>
    intro n s m s' tr h
    simp [runLoopAux] at h
  | succ fuel ih =>
    intro n s m s' tr h
    simp only [runLoopAux] at h
    split at h
    · -- `while` test observed `shouldStop`: exit with empty trace
      simp only [Option.some.injEq, Prod.mk.injEq] at h
      obtain ⟨rfl, rfl, rfl⟩ := h
      refine ⟨by simp, fun i hi => absurd hi (by simp), fun i hi => absurd hi (by simp)⟩
    · split at h
      · -- the body threw: caught, loop exits with a singleton trace
        next e s2 heq =>
        simp only [Option.some.injEq, Prod.mk.injEq] at h
        obtain ⟨rfl, rfl, rfl⟩ := h
        refine ⟨by simp, fun i hi => ?_, fun i hi => ?_⟩
        · have hi0 : i = 0 := by simpa using Nat.lt_one_iff.mp (by simpa using hi)
          subst hi0
          simp
        · have hi0 : i = 0 := by simpa using Nat.lt_one_iff.mp (by simpa using hi)
          subst hi0
          simp [continues, iterationCompleted]
      · -- the body returned; split on the break check
        next r s2 heq =>
        split at h
        · -- break: `shouldStop || !result` observed true
          next hbreak =>
          simp only [Option.some.injEq, Prod.mk.injEq] at h
          obtain ⟨rfl, rfl, rfl⟩ := h
          refine ⟨by simp, fun i hi => ?_, fun i hi => ?_⟩
          · have hi0 : i = 0 := by simpa using Nat.lt_one_iff.mp (by simpa using hi)
            subst hi0
            simp
          · have hi0 : i = 0 := by simpa using Nat.lt_one_iff.mp (by simpa using hi)
            subst hi0
            cases r with
            | false => simp [continues, iterationCompleted]
            | true =>
              have hss : s2.shouldStop = true := by simpa using hbreak
              simp [continues, iterationCompleted, hss]
        · -- continue: recurse after the 1-second delay
          next hbreak =>
          have hb : s2.shouldStop = false ∧ r = true := by
            cases hb1 : s2.shouldStop <;> cases hb2 : r <;>
              simp [hb1, hb2] at hbreak ⊢
          obtain ⟨hss, rfl⟩ := hb
          split at h
          · simp at h
          · next m0 s3 tr0 heq2 =>
            simp only [Option.some.injEq, Prod.mk.injEq] at h
            obtain ⟨rfl, rfl, rfl⟩ := h
            obtain ⟨ihm, ihcount, ihiff⟩ :=
              ih (n + 1) { s2 with shouldStop := delayStop (n + 1) } m0 s3 tr0 heq2
            refine ⟨by simp [ihm]; omega, fun i hi => ?_, fun i hi => ?_⟩
            · cases i with
              | zero => simp
              | succ j =>
                have hj : j < tr0.length := by
                  have := Nat.lt_of_succ_lt_succ (by simpa using hi)
                  exact this
                have := ihcount j hj
                simp only [List.getElem_cons_succ]
                rw [this]
                omega
            · cases i with
              | zero =>
                simp only [List.getElem_cons_zero, List.length_cons]
                cases hd : delayStop (n + 1) with
                | true =>
                  have htr0 : tr0 = [] :=
                    runLoopAux_stopped iter delayStop fuel (n + 1)
                      { s2 with shouldStop := delayStop (n + 1) } m0 s3 tr0
                      (by simp [hd]) heq2
                  subst htr0
                  simp [continues, iterationCompleted, hss, hd]
                | false =>
                  have htr0 : tr0 ≠ [] :=
                    runLoopAux_progress iter delayStop fuel (n + 1)
                      { s2 with shouldStop := delayStop (n + 1) } m0 s3 tr0
                      (by simp [hd]) heq2
                  have hpos : 0 < tr0.length := List.length_pos.mpr htr0
                  simp [continues, iterationCompleted, hss, hd]
                  omega
              | succ j =>
                have hj : j < tr0.length := by
                  have := Nat.lt_of_succ_lt_succ (by simpa using hi)
                  exact this
                have hiff := ihiff j hj
                simp only [List.getElem_cons_succ, List.length_cons]
                constructor
                · intro hlt
                  exact hiff.mp (by omega)
                · intro hc
                  have := hiff.mpr hc
                  omega

/-- Claim C4: however `runWorkflowLoop` exits — normal stop, a
non-`Completed` iteration outcome, or an exception thrown anywhere in the
loop body (modelled by `Except.error` results of the body) — the `finally`
block leaves the session at idle defaults: `isLooping = false`,
`shouldStop = false`, iteration count `0`, sticky `selectedFile` cleared. -/
theorem runWorkflowLoop_resetsOnExit
    (iter : Nat → LoopState → Except Unit Bool × LoopState)
    (delayStop : Nat → Bool) (fuel : Nat) (s0 : LoopState) (m : Nat)
    (s' : LoopState) (tr : List IterTrace)
    (h : runWorkflowLoop iter delayStop fuel s0 = some (m, s', tr)) :
    s'.isLooping = false ∧ s'.shouldStop = false
    ∧ s'.currentIterationCount = 0 ∧ s'.selectedFile = none := by
  unfold runWorkflowLoop at h
  split at h
  · simp at h
  · simp only [Option.some.injEq, Prod.mk.injEq] at h
    obtain ⟨rfl, rfl, rfl⟩ := h
    simp [resetLoopState]

/-- Witness for C4: a first iteration that throws still ends with the
session reset to idle defaults (including the sticky file that was set
before the loop started). -/
theorem runWorkflowLoop_resetsOnExit_witness :
    (⟨false, false, 0, none⟩ : LoopState).isLooping = false
    ∧ (⟨false, false, 0, none⟩ : LoopState).shouldStop = false
    ∧ (⟨false, false, 0, none⟩ : LoopState).currentIterationCount = 0
    ∧ (⟨false, false, 0, none⟩ : LoopState).selectedFile = none :=
  runWorkflowLoop_resetsOnExit (fun _ s => (Except.error (), s)) (fun _ => false) 1
    ⟨false, false, 7, some "p"⟩ 1 ⟨false, false, 0, none⟩
    [⟨1, Except.error (), false, false⟩] rfl

/-- Claim C8: in every terminated run of `runWorkflowLoop`, the `i`-th pass
of the loop body (0-based) runs with the iteration count already incremented
to `i + 1`, the final reported count equals the number of passes, and a pass
is followed by another pass exactly when it returned `true` (the `Completed`
outcome) and no stop was requested (neither observed at the break check nor
arriving during the inter-iteration delay); any `false` or thrown outcome
exits the loop. -/
theorem runWorkflowLoop_iterationProtocol
    (iter : Nat → LoopState → Except Unit Bool × LoopState)
    (delayStop : Nat → Bool) (fuel : Nat) (s0 : LoopState) (m : Nat)
    (s' : LoopState) (tr : List IterTrace)
    (h : runWorkflowLoop iter delayStop fuel s0 = some (m, s', tr)) :
    m = tr.length
    ∧ (∀ i (hi : i < tr.length), (tr[i]).count = i + 1)
    ∧ (∀ i (hi : i < tr.length), (i + 1 < tr.length ↔ continues tr[i] = true)) := by
  unfold runWorkflowLoop at h
  split at h
  · simp at h
  · next m0 s1 tr0 heq =>
    simp only [Option.some.injEq, Prod.mk.injEq] at h
    obtain ⟨rfl, rfl, rfl⟩ := h
    obtain ⟨h1, h2, h3⟩ := runLoopAux_trace iter delayStop fuel 0 _ m0 s1 tr0 heq
    refine ⟨by omega, fun i hi => ?_, h3⟩
    have := h2 i hi
    omega

/-- Witness for C8: a run whose first pass completes and whose second pass
returns `false` reports final count 2 = number of passes. -/
theorem runWorkflowLoop_iterationProtocol_witness :
    (2 : Nat) = ([⟨1, Except.ok true, false, false⟩, ⟨2, Except.ok false, false, false⟩]
        : List IterTrace).length :=
  (runWorkflowLoop_iterationProtocol
      (fun n s => (Except.ok (decide (n < 2)), s)) (fun _ => false) 3
      ⟨false, false, 0, none⟩ 2 ⟨false, false, 0, none⟩
      [⟨1, Except.ok true, false, false⟩, ⟨2, Except.ok false, false, false⟩] rfl).1
